import Mathlib

/-!
# Verification of the real-time fan-out layer of the opinion-polling backend

Shallow embedding of `backend/websocket.py` (class `ConnectionManager`, the
message handler `handle_websocket_message`, the domain broadcast wrappers) and
of the websocket endpoint loop of `backend/main.py`.

Modelling conventions:
* A websocket connection is identified by a natural number; a poll id is an
  integer (Python `int`).
* A Python `dict` is an association list whose update prepends the new binding
  and drops any stale binding for the same key; key order is never observed by
  the code (no operation iterates over a dict), so this is observationally
  faithful.
* A Python `set` is a duplicate-free list in insertion order (`add` appends if
  absent, `discard` filters).
* `await connection.send_json(message)` either succeeds or raises; a call-local
  failure oracle `fails : Nat → Bool` says which connections' sends raise
  during one broadcast call.  The `try/except` of the source is reflected in
  the model being a total function that records the failing connections and
  disconnects them, exactly as the `except` branches do; in particular no
  send failure ever escapes to the caller of a broadcast.
-/

section Dict

variable {κ : Type} {α : Type} [DecidableEq κ]

/-- Python `d.get(k)` / `k in d` lookup on an association list. -/
def dictGet (k : κ) : List (κ × α) → Option α
  | [] => none
  | (k', v) :: rest => if k' = k then some v else dictGet k rest

/-- Python `del d[k]` (removes every binding of `k`; states built by the
operations bind each key at most once). -/
def dictDel (k : κ) : List (κ × α) → List (κ × α)
  | [] => []
  | (k', v) :: rest => if k' = k then dictDel k rest else (k', v) :: dictDel k rest

/-- Python `d[k] = v`: bind `k` to `v`, dropping any previous binding. -/
def dictSet (k : κ) (v : α) (d : List (κ × α)) : List (κ × α) :=
  (k, v) :: dictDel k d

end Dict

section PySet

variable {α : Type} [DecidableEq α]

/-- Python `s.add(x)` (insertion order preserved). -/
def setAdd (x : α) (s : List α) : List α :=
  if x ∈ s then s else s ++ [x]

/-- Python `s.discard(x)`. -/
def setDiscard (x : α) (s : List α) : List α :=
  s.filter (fun z => decide (z ≠ x))

end PySet

/-- The connection registry of `backend/websocket.py`:
`active_connections : Dict[int, Set[WebSocket]]` (forward index, poll→subscribers),
`subscriptions : Dict[WebSocket, Set[int]]` (reverse index, connection→polls),
`all_connections : Set[WebSocket]` (every connected websocket). -/
structure ConnectionManager where
  active_connections : List (Int × List Nat)
  subscriptions : List (Nat × List Int)
  all_connections : List Nat
deriving DecidableEq, Repr

/-- The freshly constructed manager (`ConnectionManager.__init__`). -/
def emptyCM : ConnectionManager := ⟨[], [], []⟩

namespace ConnectionManager

/-- Source `connect`: accept the handshake, give the websocket an empty topic set and
add it to `all_connections`. -/
def connect (ws : Nat) (st : ConnectionManager) : ConnectionManager :=
  { st with
    subscriptions := dictSet ws [] st.subscriptions
    all_connections := setAdd ws st.all_connections }

/-- Source `subscribe`: ensure a forward entry for the poll exists and add the
websocket to it; add the poll to the websocket's reverse entry only when the
websocket is present in `subscriptions` (the source guards with
`if websocket in self.subscriptions`). -/
def subscribe (ws : Nat) (poll_id : Int) (st : ConnectionManager) : ConnectionManager :=
  let s := (dictGet poll_id st.active_connections).getD []
  let ac := dictSet poll_id (setAdd ws s) st.active_connections
  let subs :=
    match dictGet ws st.subscriptions with
    | some ts => dictSet ws (setAdd poll_id ts) st.subscriptions
    | none => st.subscriptions
  { st with active_connections := ac, subscriptions := subs }

/-- Source `unsubscribe`: discard the websocket from the poll's forward entry, dropping
the entry if it becomes empty; discard the poll from the websocket's reverse
entry when one exists. -/
def unsubscribe (ws : Nat) (poll_id : Int) (st : ConnectionManager) : ConnectionManager :=
  let ac :=
    match dictGet poll_id st.active_connections with
    | some s =>
        let s' := setDiscard ws s
        if s' = [] then dictDel poll_id st.active_connections
        else dictSet poll_id s' st.active_connections
    | none => st.active_connections
  let subs :=
    match dictGet ws st.subscriptions with
    | some ts => dictSet ws (setDiscard poll_id ts) st.subscriptions
    | none => st.subscriptions
  { st with active_connections := ac, subscriptions := subs }

/-- Source `disconnect`: when the websocket has a reverse entry, unsubscribe it from a
snapshot of its polls and delete the entry; always discard it from
`all_connections`. -/
def disconnect (ws : Nat) (st : ConnectionManager) : ConnectionManager :=
  let st1 :=
    match dictGet ws st.subscriptions with
    | some poll_ids =>
        let st' := poll_ids.foldl (fun s p => unsubscribe ws p s) st
        { st' with subscriptions := dictDel ws st'.subscriptions }
    | none => st
  { st1 with all_connections := setDiscard ws st1.all_connections }

/-- The subscriber snapshot the dispatcher iterates over
(`active_connections[poll_id].copy()`, or the empty set when the poll has no
entry). -/
def subscribersOf (poll_id : Int) (st : ConnectionManager) : List Nat :=
  (dictGet poll_id st.active_connections).getD []

/-- The reverse-index topic set of one websocket (`subscriptions[ws]`, empty
when absent). -/
def reverseTopics (ws : Nat) (st : ConnectionManager) : List Int :=
  (dictGet ws st.subscriptions).getD []

/-- Source `broadcast_to_poll`: iterate over a snapshot of the poll's subscribers,
send to each (collecting the connections whose send raises), then disconnect
every failing connection.  Returns the list of `(connection, message)` pairs
actually delivered together with the new registry state. -/
def broadcast_to_poll {α : Type} (fails : Nat → Bool) (poll_id : Int) (message : α)
    (st : ConnectionManager) : List (Nat × α) × ConnectionManager :=
  match dictGet poll_id st.active_connections with
  | none => ([], st)
  | some subs =>
      let delivered := (subs.filter (fun c => !(fails c))).map (fun c => (c, message))
      let disconnected := subs.filter (fun c => fails c)
      (delivered, disconnected.foldl (fun s c => disconnect c s) st)

/-- Source `broadcast_to_all`: the same delivery loop over a snapshot of
`all_connections`. -/
def broadcast_to_all {α : Type} (fails : Nat → Bool) (message : α)
    (st : ConnectionManager) : List (Nat × α) × ConnectionManager :=
  let conns := st.all_connections
  let delivered := (conns.filter (fun c => !(fails c))).map (fun c => (c, message))
  let disconnected := conns.filter (fun c => fails c)
  (delivered, disconnected.foldl (fun s c => disconnect c s) st)

/-- Source `send_personal_message`: unicast with the failure-is-eviction policy. -/
def send_personal_message {β : Type} (fails : Nat → Bool) (message : β) (ws : Nat)
    (st : ConnectionManager) : List (Nat × β) × ConnectionManager :=
  if fails ws then ([], disconnect ws st) else ([(ws, message)], st)

end ConnectionManager

/-- The outbound server→client events of `websocket.py`, with an opaque domain
payload of type `α` where the source carries a `data` dict. -/
inductive Msg (α : Type) where
  | subscribed (poll_id : Int)
  | unsubscribed (poll_id : Int)
  | pong
  | vote_update (poll_id : Int) (data : α)
  | like_update (poll_id : Int) (data : α)
  | poll_created (data : α)
  | poll_update (poll_id : Int) (data : α)
  | poll_deleted (poll_id : Int)
deriving DecidableEq, Repr

/-- An inbound client control message after JSON parsing: `data.get("type")`
and `data.get("poll_id")` of the source dict. -/
structure InMsg where
  type : Option String
  poll_id : Option Int
deriving DecidableEq, Repr

/-- Python truthiness of `data.get("poll_id")` (`if poll_id:`): `None` and `0`
are falsy. -/
def truthyPollId : Option Int → Bool
  | none => false
  | some n => decide (n ≠ 0)

open ConnectionManager in
/-- Source `handle_websocket_message`: dispatch on `data.get("type")`; `subscribe` and
`unsubscribe` act only when `poll_id` is truthy and acknowledge through
`send_personal_message`; `ping` answers `pong`; anything else falls through.
Returns the delivered `(connection, message)` pairs and the new state. -/
def handle_websocket_message {α : Type} (fails : Nat → Bool) (ws : Nat) (data : InMsg)
    (st : ConnectionManager) : List (Nat × Msg α) × ConnectionManager :=
  if data.type = some "subscribe" then
    match data.poll_id with
    | some n =>
        if n ≠ 0 then
          send_personal_message fails (Msg.subscribed n) ws (subscribe ws n st)
        else ([], st)
    | none => ([], st)
  else if data.type = some "unsubscribe" then
    match data.poll_id with
    | some n =>
        if n ≠ 0 then
          send_personal_message fails (Msg.unsubscribed n) ws (unsubscribe ws n st)
        else ([], st)
    | none => ([], st)
  else if data.type = some "ping" then
    send_personal_message fails (Msg.pong) ws st
  else ([], st)

/-- One frame read by `websocket.receive_json()` in the endpoint loop of
`backend/main.py`: either a successfully parsed JSON object, or a frame on
which `receive_json` raises (not JSON, not an object, transport error). -/
inductive Frame where
  | json (d : InMsg)
  | garbage
deriving DecidableEq, Repr

open ConnectionManager in
/-- The `while True` receive loop of `websocket_endpoint` in `backend/main.py`:
each parsed frame goes to `handle_websocket_message`; a frame on which
`receive_json` raises is caught by the `except Exception` branch, which calls
`manager.disconnect` and leaves the loop.  The boolean records whether the
loop was terminated through that exception path. -/
def wsLoop (fails : Nat → Bool) (ws : Nat) :
    List Frame → ConnectionManager → ConnectionManager × Bool
  | [], st => (st, false)
  | Frame.garbage :: _, st => (disconnect ws st, true)
  | Frame.json d :: rest, st =>
      wsLoop fails ws rest (handle_websocket_message (α := Unit) fails ws d st).2

open ConnectionManager in
/-- Source `websocket_endpoint` of `backend/main.py`: accept the connection, then run
the receive loop over the inbound frames. -/
def websocket_endpoint (fails : Nat → Bool) (ws : Nat) (frames : List Frame)
    (st : ConnectionManager) : ConnectionManager × Bool :=
  wsLoop fails ws frames (ConnectionManager.connect ws st)

open ConnectionManager in
/-- Source `broadcast_vote_update`: topic-scoped domain event. -/
def broadcast_vote_update {α : Type} (fails : Nat → Bool) (poll_id : Int) (vote_data : α)
    (st : ConnectionManager) : List (Nat × Msg α) × ConnectionManager :=
  broadcast_to_poll fails poll_id (Msg.vote_update poll_id vote_data) st

open ConnectionManager in
/-- Source `broadcast_like_update`: topic-scoped domain event. -/
def broadcast_like_update {α : Type} (fails : Nat → Bool) (poll_id : Int) (like_data : α)
    (st : ConnectionManager) : List (Nat × Msg α) × ConnectionManager :=
  broadcast_to_poll fails poll_id (Msg.like_update poll_id like_data) st

open ConnectionManager in
/-- Source `broadcast_poll_created`: global domain event over `all_connections`. -/
def broadcast_poll_created {α : Type} (fails : Nat → Bool) (poll_data : α)
    (st : ConnectionManager) : List (Nat × Msg α) × ConnectionManager :=
  broadcast_to_all fails (Msg.poll_created poll_data) st

open ConnectionManager in
/-- Source `broadcast_poll_updated`: global domain event over `all_connections`. -/
def broadcast_poll_updated {α : Type} (fails : Nat → Bool) (poll_id : Int) (poll_data : α)
    (st : ConnectionManager) : List (Nat × Msg α) × ConnectionManager :=
  broadcast_to_all fails (Msg.poll_update poll_id poll_data) st

open ConnectionManager in
/-- Source `broadcast_poll_deleted`: global domain event over `all_connections`. -/
def broadcast_poll_deleted (α : Type) (fails : Nat → Bool) (poll_id : Int)
    (st : ConnectionManager) : List (Nat × Msg α) × ConnectionManager :=
  broadcast_to_all fails (Msg.poll_deleted poll_id) st

/-- A registry operation of the manager's public lifecycle interface. -/
inductive RegOp where
  | connect (ws : Nat)
  | disconnect (ws : Nat)
  | subscribe (ws : Nat) (poll_id : Int)
  | unsubscribe (ws : Nat) (poll_id : Int)
deriving DecidableEq, Repr

/-- Apply one registry operation. -/
def applyRegOp (st : ConnectionManager) : RegOp → ConnectionManager
  | RegOp.connect ws => ConnectionManager.connect ws st
  | RegOp.disconnect ws => ConnectionManager.disconnect ws st
  | RegOp.subscribe ws p => ConnectionManager.subscribe ws p st
  | RegOp.unsubscribe ws p => ConnectionManager.unsubscribe ws p st

/-- Run a sequence of registry operations from the freshly constructed
manager. -/
def runRegOps (ops : List RegOp) : ConnectionManager :=
  ops.foldl applyRegOp emptyCM

/-- A sequence of subscribe (`true`) / unsubscribe (`false`) calls on one fixed
connection, applied in order. -/
def applySubSeq (ws : Nat) (ops : List (Bool × Int)) (st : ConnectionManager) :
    ConnectionManager :=
  ops.foldl
    (fun s op =>
      if op.1 then ConnectionManager.subscribe ws op.2 s
      else ConnectionManager.unsubscribe ws op.2 s) st

/-- Bidirectional consistency of the two indices, seen from one connection: the
connection is listed by a topic's forward entry exactly when the topic is in
the connection's reverse topic set. -/
def consistentFor (ws : Nat) (st : ConnectionManager) : Prop :=
  ∀ t : Int, ws ∈ ConnectionManager.subscribersOf t st ↔ t ∈ ConnectionManager.reverseTopics ws st

/-- Membership in `all_connections` coincides with having a reverse-index
entry. -/
def connInv (st : ConnectionManager) : Prop :=
  ∀ w : Nat, w ∈ st.all_connections ↔ (dictGet w st.subscriptions).isSome = true

/-- Every topic present in the forward index has a non-empty subscriber set. -/
def nonEmptyForward (st : ConnectionManager) : Prop :=
  ∀ (t : Int) (s : List Nat), dictGet t st.active_connections = some s → s ≠ []

/-! ## Lemmas about the dictionary and set primitives -/

section DictLemmas

variable {κ : Type} {α : Type} [DecidableEq κ]

theorem dictGet_del_self (k : κ) (d : List (κ × α)) : dictGet k (dictDel k d) = none := by
  induction d with
  | nil => rfl
  | cons kv rest ih =>
    obtain ⟨k', v⟩ := kv
    by_cases h : k' = k <;> simp [dictDel, dictGet, h, ih]

theorem dictGet_del_ne {k k' : κ} (h : k' ≠ k) (d : List (κ × α)) :
    dictGet k' (dictDel k d) = dictGet k' d := by
  induction d with
  | nil => rfl
  | cons kv rest ih =>
    obtain ⟨k₀, v⟩ := kv
    show dictGet k' (if k₀ = k then dictDel k rest else (k₀, v) :: dictDel k rest)
        = if k₀ = k' then some v else dictGet k' rest
    by_cases hk : k₀ = k
    · rw [if_pos hk, if_neg (fun hc => h (hc.symm.trans hk)), ih]
    · rw [if_neg hk]
      show (if k₀ = k' then some v else dictGet k' (dictDel k rest)) = _
      by_cases hk' : k₀ = k'
      · rw [if_pos hk', if_pos hk']
      · rw [if_neg hk', if_neg hk', ih]

@[simp] theorem dictGet_set_self (k : κ) (v : α) (d : List (κ × α)) :
    dictGet k (dictSet k v d) = some v := by
  simp [dictSet, dictGet]

theorem dictGet_set_ne {k k' : κ} (h : k' ≠ k) (v : α) (d : List (κ × α)) :
    dictGet k' (dictSet k v d) = dictGet k' d := by
  simp [dictSet, dictGet, Ne.symm h, dictGet_del_ne h]

end DictLemmas

section PySetLemmas

variable {α : Type} [DecidableEq α]

@[simp] theorem mem_setAdd {x y : α} {s : List α} : y ∈ setAdd x s ↔ y = x ∨ y ∈ s := by
  unfold setAdd
  by_cases h : x ∈ s
  · simp only [if_pos h]
    constructor
    · exact Or.inr
    · rintro (rfl | hy)
      · exact h
      · exact hy
  · simp [if_neg h, or_comm]

@[simp] theorem mem_setDiscard {x y : α} {s : List α} :
    y ∈ setDiscard x s ↔ y ∈ s ∧ y ≠ x := by
  simp [setDiscard, List.mem_filter]

theorem setDiscard_of_not_mem {x : α} {s : List α} (h : x ∉ s) : setDiscard x s = s :=
  List.filter_eq_self.mpr (fun _ hy => decide_eq_true (fun hc => h (hc ▸ hy)))

theorem setAdd_ne_nil (x : α) (s : List α) : setAdd x s ≠ [] := by
  intro h
  have hx : x ∈ setAdd x s := mem_setAdd.mpr (Or.inl rfl)
  rw [h] at hx
  exact absurd hx (List.not_mem_nil x)

end PySetLemmas

/-! ## Characterization of the registry operations -/

namespace ConnectionManager

theorem subscribersOf_connect (t : Int) (ws : Nat) (st : ConnectionManager) :
    subscribersOf t (connect ws st) = subscribersOf t st := rfl

theorem subscribersOf_subscribe (t : Int) (ws : Nat) (p : Int) (st : ConnectionManager) :
    subscribersOf t (subscribe ws p st)
      = if t = p then setAdd ws (subscribersOf p st) else subscribersOf t st := by
  unfold subscribe subscribersOf
  by_cases h : t = p
  · subst h
    simp
  · simp only [if_neg h]
    rw [dictGet_set_ne h]

theorem subscribersOf_unsubscribe (t : Int) (ws : Nat) (p : Int) (st : ConnectionManager) :
    subscribersOf t (unsubscribe ws p st)
      = if t = p then setDiscard ws (subscribersOf p st) else subscribersOf t st := by
  by_cases h : t = p
  · subst h
    simp only [unsubscribe, subscribersOf, if_pos rfl]
    cases hg : dictGet t st.active_connections with
    | none => simp [hg, setDiscard]
    | some s =>
        simp only [hg, Option.getD_some]
        by_cases he : setDiscard ws s = []
        · rw [if_pos he, dictGet_del_self, he]
          rfl
        · rw [if_neg he, dictGet_set_self]
          rfl
  · simp only [unsubscribe, subscribersOf, if_neg h]
    cases hg : dictGet p st.active_connections with
    | none => rfl
    | some s =>
        simp only [hg]
        by_cases he : setDiscard ws s = []
        · rw [if_pos he, dictGet_del_ne h]
        · rw [if_neg he, dictGet_set_ne h]

theorem all_connections_unsubscribe (ws : Nat) (p : Int) (st : ConnectionManager) :
    (unsubscribe ws p st).all_connections = st.all_connections := rfl

theorem all_connections_subscribe (ws : Nat) (p : Int) (st : ConnectionManager) :
    (subscribe ws p st).all_connections = st.all_connections := rfl

theorem subscriptions_unsubscribe_ne {w ws : Nat} (h : w ≠ ws) (p : Int)
    (st : ConnectionManager) :
    dictGet w (unsubscribe ws p st).subscriptions = dictGet w st.subscriptions := by
  unfold unsubscribe
  cases hg : dictGet ws st.subscriptions with
  | none => rfl
  | some ts => exact dictGet_set_ne h _ _

theorem subscriptions_unsubscribe_self (ws : Nat) (p : Int) (st : ConnectionManager) :
    dictGet ws (unsubscribe ws p st).subscriptions
      = (dictGet ws st.subscriptions).map (setDiscard p) := by
  unfold unsubscribe
  cases hg : dictGet ws st.subscriptions with
  | none => simp [hg]
  | some ts => simp [hg]

theorem subscriptions_subscribe_ne {w ws : Nat} (h : w ≠ ws) (p : Int)
    (st : ConnectionManager) :
    dictGet w (subscribe ws p st).subscriptions = dictGet w st.subscriptions := by
  unfold subscribe
  cases hg : dictGet ws st.subscriptions with
  | none => rfl
  | some ts => exact dictGet_set_ne h _ _

theorem subscriptions_subscribe_self (ws : Nat) (p : Int) (st : ConnectionManager) :
    dictGet ws (subscribe ws p st).subscriptions
      = (dictGet ws st.subscriptions).map (setAdd p) := by
  unfold subscribe
  cases hg : dictGet ws st.subscriptions with
  | none => simp [hg]
  | some ts => simp [hg]

theorem all_connections_foldl_unsub (ws : Nat) (l : List Int) (st : ConnectionManager) :
    (l.foldl (fun s p => unsubscribe ws p s) st).all_connections = st.all_connections := by
  induction l generalizing st with
  | nil => rfl
  | cons p rest ih => rw [List.foldl_cons, ih, all_connections_unsubscribe]

theorem all_connections_disconnect (ws : Nat) (st : ConnectionManager) :
    (disconnect ws st).all_connections = setDiscard ws st.all_connections := by
  unfold disconnect
  cases hg : dictGet ws st.subscriptions with
  | none => rfl
  | some ts => simp [all_connections_foldl_unsub]

theorem subscribersOf_foldl_unsub_mem {c : Nat} {t : Int} (ws : Nat) (l : List Int)
    (st : ConnectionManager)
    (h : c ∈ subscribersOf t (l.foldl (fun s p => unsubscribe ws p s) st)) :
    c ∈ subscribersOf t st := by
  induction l generalizing st with
  | nil => exact h
  | cons p rest ih =>
    have h1 := ih (unsubscribe ws p st) h
    rw [subscribersOf_unsubscribe] at h1
    by_cases ht : t = p
    · rw [if_pos ht] at h1
      exact ht ▸ (mem_setDiscard.mp h1).1
    · rwa [if_neg ht] at h1

theorem subscribersOf_disconnect_mem {c : Nat} {t : Int} (ws : Nat) (st : ConnectionManager)
    (h : c ∈ subscribersOf t (disconnect ws st)) : c ∈ subscribersOf t st := by
  unfold disconnect at h
  cases hg : dictGet ws st.subscriptions with
  | none =>
      rw [hg] at h
      exact h
  | some ts =>
      rw [hg] at h
      exact subscribersOf_foldl_unsub_mem ws ts st h

theorem subscribersOf_foldl_unsub_absent {c : Nat} {t : Int} (l : List Int)
    (st : ConnectionManager) (h : t ∈ l ∨ c ∉ subscribersOf t st) :
    c ∉ subscribersOf t (l.foldl (fun s p => unsubscribe c p s) st) := by
  induction l generalizing st with
  | nil =>
    cases h with
    | inl h0 => exact absurd h0 (List.not_mem_nil t)
    | inr h0 => exact h0
  | cons p rest ih =>
    rw [List.foldl_cons]
    by_cases htp : t = p
    · refine ih _ (Or.inr ?_)
      rw [subscribersOf_unsubscribe, if_pos htp]
      intro hc
      exact (mem_setDiscard.mp hc).2 rfl
    · cases h with
      | inl h0 =>
        cases List.mem_cons.mp h0 with
        | inl h1 => exact absurd h1 htp
        | inr h1 => exact ih _ (Or.inl h1)
      | inr h0 =>
        refine ih _ (Or.inr ?_)
        rw [subscribersOf_unsubscribe, if_neg htp]
        exact h0

theorem disconnect_clears {c : Nat} {t : Int} {ts : List Int} (st : ConnectionManager)
    (hg : dictGet c st.subscriptions = some ts) (ht : t ∈ ts) :
    c ∉ subscribersOf t (disconnect c st) := by
  unfold disconnect
  rw [hg]
  exact subscribersOf_foldl_unsub_absent ts st (Or.inl ht)

theorem subscribersOf_disconnect_absent {c d : Nat} {t : Int} (st : ConnectionManager)
    (h : c ∉ subscribersOf t st) : c ∉ subscribersOf t (disconnect d st) :=
  fun hc => h (subscribersOf_disconnect_mem d st hc)

theorem subscriptions_disconnect_ne {w ws : Nat} (h : w ≠ ws) (st : ConnectionManager) :
    dictGet w (disconnect ws st).subscriptions = dictGet w st.subscriptions := by
  unfold disconnect
  cases hg : dictGet ws st.subscriptions with
  | none => rfl
  | some ts =>
      show dictGet w (dictDel ws (List.foldl _ st ts).subscriptions) = _
      rw [dictGet_del_ne h]
      clear hg
      induction ts generalizing st with
      | nil => rfl
      | cons p rest ih =>
        rw [List.foldl_cons, ih, subscriptions_unsubscribe_ne h]

theorem subscriptions_disconnect_self (ws : Nat) (st : ConnectionManager) :
    dictGet ws (disconnect ws st).subscriptions = none := by
  unfold disconnect
  cases hg : dictGet ws st.subscriptions with
  | none => exact hg
  | some ts =>
      show dictGet ws (dictDel ws _) = none
      exact dictGet_del_self ws _

end ConnectionManager

/-! ## Claim theorems -/

open ConnectionManager

/-- C1: `broadcast_to_poll(t, e)` delivers `e` to every connection in the
subscriber snapshot of `t` taken as the call begins (all sends succeeding),
and to no connection outside that snapshot (for any failure pattern); when `t`
has no subscriber entry the call delivers to zero connections and returns the
state unchanged. -/
theorem broadcast_to_poll_delivers_exactly_subscribers {α : Type} (fails : Nat → Bool)
    (poll_id : Int) (message : α) (st : ConnectionManager)
    (hok : ∀ c ∈ subscribersOf poll_id st, fails c = false) :
    (broadcast_to_poll fails poll_id message st).1
        = (subscribersOf poll_id st).map (fun c => (c, message))
      ∧ (∀ (fails2 : Nat → Bool) (c : Nat) (m : α),
          (c, m) ∈ (broadcast_to_poll fails2 poll_id message st).1 →
            c ∈ subscribersOf poll_id st ∧ m = message)
      ∧ (dictGet poll_id st.active_connections = none →
          ∀ fails2 : Nat → Bool, broadcast_to_poll fails2 poll_id message st = ([], st)) := by
  refine ⟨?_, ?_, ?_⟩
  · unfold broadcast_to_poll
    cases hg : dictGet poll_id st.active_connections with
    | none => simp [subscribersOf, hg]
    | some subs =>
        have hsubs : subscribersOf poll_id st = subs := by simp [subscribersOf, hg]
        rw [hsubs] at hok
        simp only
        rw [List.filter_eq_self.mpr (fun c hc => by simp [hok c hc]), hsubs]
  · intro fails2 c m hm
    unfold broadcast_to_poll at hm
    cases hg : dictGet poll_id st.active_connections with
    | none =>
        rw [hg] at hm
        simp at hm
    | some subs =>
        rw [hg] at hm
        simp only [List.mem_map, List.mem_filter] at hm
        obtain ⟨c', ⟨hc', _⟩, heq⟩ := hm
        obtain ⟨rfl, rfl⟩ := Prod.mk.injEq c' message c m |>.mp heq
        exact ⟨by simp [subscribersOf, hg, hc'], rfl⟩
  · intro hg fails2
    unfold broadcast_to_poll
    rw [hg]

theorem broadcast_to_poll_delivers_exactly_subscribers_witness :
    (broadcast_to_poll (fun _ => false) 5 (0 : Nat)
        (subscribe 2 5 (subscribe 1 5 (connect 2 (connect 1 emptyCM))))).1
      = [(1, 0), (2, 0)] := by
  have h := (broadcast_to_poll_delivers_exactly_subscribers (fun _ => false) 5 (0 : Nat)
      (subscribe 2 5 (subscribe 1 5 (connect 2 (connect 1 emptyCM)))) (by decide)).1
  exact h.trans (by decide)

/-- C5: `poll_created` and `poll_deleted` are global broadcasts: with all sends
succeeding they are delivered to every currently connected client, whatever
its subscription set (the statement never consults `subscriptions`). -/
theorem global_broadcast_reaches_all_connected {α : Type} (fails : Nat → Bool)
    (poll_data : α) (poll_id : Int) (st : ConnectionManager)
    (hok : ∀ c ∈ st.all_connections, fails c = false) :
    (broadcast_poll_created fails poll_data st).1
        = st.all_connections.map (fun c => (c, Msg.poll_created poll_data))
      ∧ (broadcast_poll_deleted α fails poll_id st).1
        = st.all_connections.map (fun c => (c, Msg.poll_deleted poll_id)) := by
  have hf : st.all_connections.filter (fun c => !(fails c)) = st.all_connections :=
    List.filter_eq_self.mpr (fun c hc => by simp [hok c hc])
  constructor
  · unfold broadcast_poll_created broadcast_to_all
    simp only
    rw [hf]
  · unfold broadcast_poll_deleted broadcast_to_all
    simp only
    rw [hf]

theorem global_broadcast_reaches_all_connected_witness :
    (broadcast_poll_created (fun _ => false) () (subscribe 1 5 (connect 2 (connect 1 emptyCM)))).1
        = [(1, Msg.poll_created ()), (2, Msg.poll_created ())]
      ∧ (broadcast_poll_deleted Unit (fun _ => false) 5
          (subscribe 1 5 (connect 2 (connect 1 emptyCM)))).1
        = [(1, Msg.poll_deleted 5), (2, Msg.poll_deleted 5)] := by
  have h := global_broadcast_reaches_all_connected (fun _ => false) () 5
      (subscribe 1 5 (connect 2 (connect 1 emptyCM))) (by decide)
  exact ⟨h.1.trans (by decide), h.2.trans (by decide)⟩

/-- C10: subscribing a websocket that has no reverse-index entry (never
connected, or already disconnected) still adds it to the poll's forward entry
while leaving the `subscriptions` map unchanged, and a later
`broadcast_to_poll` for that poll delivers to it. -/
theorem subscribe_without_reverse_entry {α : Type} (ws : Nat) (t : Int)
    (st : ConnectionManager) (h : dictGet ws st.subscriptions = none) :
    (subscribe ws t st).subscriptions = st.subscriptions
      ∧ ws ∈ subscribersOf t (subscribe ws t st)
      ∧ ∀ (fails : Nat → Bool) (message : α), fails ws = false →
          (ws, message) ∈ (broadcast_to_poll fails t message (subscribe ws t st)).1 := by
  refine ⟨?_, ?_, ?_⟩
  · unfold subscribe
    rw [h]
  · rw [subscribersOf_subscribe, if_pos rfl]
    exact mem_setAdd.mpr (Or.inl rfl)
  · intro fails message hok
    have hmem : ws ∈ subscribersOf t (subscribe ws t st) := by
      rw [subscribersOf_subscribe, if_pos rfl]
      exact mem_setAdd.mpr (Or.inl rfl)
    unfold broadcast_to_poll
    cases hg : dictGet t (subscribe ws t st).active_connections with
    | none =>
        exfalso
        unfold subscribersOf at hmem
        rw [hg] at hmem
        exact absurd hmem (List.not_mem_nil ws)
    | some subs =>
        have hsubs : ws ∈ subs := by
          unfold subscribersOf at hmem
          rw [hg] at hmem
          exact hmem
        simp only [List.mem_map, List.mem_filter]
        exact ⟨ws, ⟨hsubs, by simp [hok]⟩, rfl⟩

theorem subscribe_without_reverse_entry_witness :
    dictGet 1 (disconnect 1 (subscribe 1 7 (connect 1 emptyCM))).subscriptions = none
      ∧ 1 ∈ subscribersOf 7 (subscribe 1 7 (disconnect 1 (subscribe 1 7 (connect 1 emptyCM))))
      ∧ (1, 0) ∈ (broadcast_to_poll (fun _ => false) 7 (0 : Nat)
          (subscribe 1 7 (disconnect 1 (subscribe 1 7 (connect 1 emptyCM))))).1 :=
  ⟨by decide,
   (subscribe_without_reverse_entry (α := Nat) 1 7
      (disconnect 1 (subscribe 1 7 (connect 1 emptyCM))) (by decide)).2.1,
   (subscribe_without_reverse_entry (α := Nat) 1 7
      (disconnect 1 (subscribe 1 7 (connect 1 emptyCM))) (by decide)).2.2
      (fun _ => false) 0 rfl⟩

theorem reverseTopics_subscribe_self {ws : Nat} {st : ConnectionManager} {ts : List Int}
    (hts : dictGet ws st.subscriptions = some ts) (p : Int) :
    reverseTopics ws (ConnectionManager.subscribe ws p st) = setAdd p ts := by
  unfold reverseTopics
  rw [subscriptions_subscribe_self, hts]
  rfl

theorem reverseTopics_unsubscribe_self {ws : Nat} {st : ConnectionManager} {ts : List Int}
    (hts : dictGet ws st.subscriptions = some ts) (p : Int) :
    reverseTopics ws (ConnectionManager.unsubscribe ws p st) = setDiscard p ts := by
  unfold reverseTopics
  rw [subscriptions_unsubscribe_self, hts]
  rfl

theorem consistentFor_subscribe {ws : Nat} {st : ConnectionManager} {ts : List Int}
    (hts : dictGet ws st.subscriptions = some ts) (h2 : consistentFor ws st) (p : Int) :
    consistentFor ws (ConnectionManager.subscribe ws p st) := by
  intro t
  have hold : reverseTopics ws st = ts := by
    unfold reverseTopics
    rw [hts]
    rfl
  rw [subscribersOf_subscribe, reverseTopics_subscribe_self hts]
  by_cases h : t = p
  · subst h
    simp
  · rw [if_neg h, mem_setAdd]
    constructor
    · intro hw
      exact Or.inr (hold ▸ (h2 t).mp hw)
    · rintro (rfl | ht)
      · exact absurd rfl h
      · exact (h2 t).mpr (hold ▸ ht)

theorem consistentFor_unsubscribe {ws : Nat} {st : ConnectionManager} {ts : List Int}
    (hts : dictGet ws st.subscriptions = some ts) (h2 : consistentFor ws st) (p : Int) :
    consistentFor ws (ConnectionManager.unsubscribe ws p st) := by
  intro t
  have hold : reverseTopics ws st = ts := by
    unfold reverseTopics
    rw [hts]
    rfl
  rw [subscribersOf_unsubscribe, reverseTopics_unsubscribe_self hts]
  by_cases h : t = p
  · subst h
    rw [if_pos rfl, mem_setDiscard, mem_setDiscard]
    constructor
    · intro hw
      exact absurd rfl hw.2
    · intro hw
      exact absurd rfl hw.2
  · rw [if_neg h, mem_setDiscard]
    constructor
    · intro hw
      exact ⟨hold ▸ (h2 t).mp hw, h⟩
    · intro hw
      exact (h2 t).mpr (hold ▸ hw.1)

/-- C3: any sequence of subscribe/unsubscribe calls on a connection preserves
bidirectional index consistency for that connection, given that the connection
has a reverse-index entry and the indices are consistent for it at the
start. -/
theorem subscribe_unsubscribe_preserve_consistency (ws : Nat) (ops : List (Bool × Int))
    (st : ConnectionManager) (h1 : (dictGet ws st.subscriptions).isSome = true)
    (h2 : consistentFor ws st) :
    consistentFor ws (applySubSeq ws ops st) := by
  induction ops generalizing st with
  | nil => exact h2
  | cons op rest ih =>
    obtain ⟨ts, hts⟩ := Option.isSome_iff_exists.mp h1
    unfold applySubSeq
    rw [List.foldl_cons]
    show consistentFor ws (applySubSeq ws rest _)
    by_cases hb : op.1 = true
    · rw [if_pos hb]
      refine ih _ ?_ (consistentFor_subscribe hts h2 op.2)
      rw [subscriptions_subscribe_self, hts]
      rfl
    · rw [if_neg hb]
      refine ih _ ?_ (consistentFor_unsubscribe hts h2 op.2)
      rw [subscriptions_unsubscribe_self, hts]
      rfl

theorem subscribe_unsubscribe_preserve_consistency_witness :
    1 ∈ subscribersOf 3 (applySubSeq 1 [(true, 5), (true, 3), (false, 5)] (connect 1 emptyCM))
      ↔ 3 ∈ reverseTopics 1
          (applySubSeq 1 [(true, 5), (true, 3), (false, 5)] (connect 1 emptyCM)) :=
  subscribe_unsubscribe_preserve_consistency 1 [(true, 5), (true, 3), (false, 5)]
    (connect 1 emptyCM) (by decide)
    (by
      intro t
      rw [subscribersOf_connect]
      unfold subscribersOf reverseTopics connect emptyCM
      simp [dictGet, dictSet, dictDel]) 3

theorem subscriptions_isSome_subscribe (w ws : Nat) (p : Int) (st : ConnectionManager) :
    (dictGet w (ConnectionManager.subscribe ws p st).subscriptions).isSome
      = (dictGet w st.subscriptions).isSome := by
  by_cases h : w = ws
  · subst h
    rw [subscriptions_subscribe_self]
    cases dictGet w st.subscriptions <;> rfl
  · rw [subscriptions_subscribe_ne h]

theorem subscriptions_isSome_unsubscribe (w ws : Nat) (p : Int) (st : ConnectionManager) :
    (dictGet w (ConnectionManager.unsubscribe ws p st).subscriptions).isSome
      = (dictGet w st.subscriptions).isSome := by
  by_cases h : w = ws
  · subst h
    rw [subscriptions_unsubscribe_self]
    cases dictGet w st.subscriptions <;> rfl
  · rw [subscriptions_unsubscribe_ne h]

theorem connInv_applyRegOp {st : ConnectionManager} (h : connInv st) (op : RegOp) :
    connInv (applyRegOp st op) := by
  cases op with
  | connect ws =>
      intro w
      show w ∈ setAdd ws st.all_connections
          ↔ (dictGet w (dictSet ws [] st.subscriptions)).isSome = true
      by_cases hw : w = ws
      · subst hw
        rw [dictGet_set_self]
        constructor
        · intro _
          rfl
        · intro _
          exact mem_setAdd.mpr (Or.inl rfl)
      · rw [dictGet_set_ne hw, mem_setAdd]
        constructor
        · rintro (rfl | hm)
          · exact absurd rfl hw
          · exact (h w).mp hm
        · intro hm
          exact Or.inr ((h w).mpr hm)
  | disconnect ws =>
      intro w
      show w ∈ (ConnectionManager.disconnect ws st).all_connections
          ↔ (dictGet w (ConnectionManager.disconnect ws st).subscriptions).isSome = true
      rw [all_connections_disconnect, mem_setDiscard]
      by_cases hw : w = ws
      · subst hw
        rw [subscriptions_disconnect_self]
        constructor
        · intro hm
          exact absurd rfl hm.2
        · intro hm
          exact absurd hm (by simp)
      · rw [subscriptions_disconnect_ne hw]
        constructor
        · intro hm
          exact (h w).mp hm.1
        · intro hm
          exact ⟨(h w).mpr hm, hw⟩
  | subscribe ws p =>
      intro w
      show w ∈ (ConnectionManager.subscribe ws p st).all_connections
          ↔ (dictGet w (ConnectionManager.subscribe ws p st).subscriptions).isSome = true
      rw [all_connections_subscribe, subscriptions_isSome_subscribe]
      exact h w
  | unsubscribe ws p =>
      intro w
      show w ∈ (ConnectionManager.unsubscribe ws p st).all_connections
          ↔ (dictGet w (ConnectionManager.unsubscribe ws p st).subscriptions).isSome = true
      rw [all_connections_unsubscribe, subscriptions_isSome_unsubscribe]
      exact h w

/-- C9: after any sequence of connect / disconnect / subscribe / unsubscribe
operations from the fresh manager, a websocket is a member of
`all_connections` exactly when the `subscriptions` map has an entry for it. -/
theorem all_connections_iff_subscriptions_entry (ops : List RegOp) :
    connInv (runRegOps ops) := by
  have hrun : ∀ (l : List RegOp) (st : ConnectionManager),
      connInv st → connInv (l.foldl applyRegOp st) := by
    intro l
    induction l with
    | nil => exact fun st h => h
    | cons op rest ih =>
        intro st h
        rw [List.foldl_cons]
        exact ih _ (connInv_applyRegOp h op)
  refine hrun ops emptyCM ?_
  intro w
  show w ∈ ([] : List Nat) ↔ (dictGet w ([] : List (Nat × List Int))).isSome = true
  simp [dictGet]

theorem nonEmptyForward_unsubscribe {st : ConnectionManager} (h : nonEmptyForward st)
    (ws : Nat) (p : Int) : nonEmptyForward (ConnectionManager.unsubscribe ws p st) := by
  intro t s' hg'
  simp only [ConnectionManager.unsubscribe] at hg'
  cases hga : dictGet p st.active_connections with
  | none =>
      simp only [hga] at hg'
      exact h t s' hg'
  | some s =>
      simp only [hga] at hg'
      by_cases he : setDiscard ws s = []
      · rw [if_pos he] at hg'
        by_cases ht : t = p
        · subst ht
          rw [dictGet_del_self] at hg'
          exact absurd hg' (by simp)
        · rw [dictGet_del_ne ht] at hg'
          exact h t s' hg'
      · rw [if_neg he] at hg'
        by_cases ht : t = p
        · subst ht
          rw [dictGet_set_self] at hg'
          obtain rfl := Option.some.injEq .. |>.mp hg'
          exact he
        · rw [dictGet_set_ne ht] at hg'
          exact h t s' hg'

theorem active_connections_disconnect (ws : Nat) (st : ConnectionManager) :
    (ConnectionManager.disconnect ws st).active_connections
      = ((reverseTopics ws st).foldl
          (fun s p => ConnectionManager.unsubscribe ws p s) st).active_connections := by
  unfold ConnectionManager.disconnect reverseTopics
  cases hg : dictGet ws st.subscriptions with
  | none => simp [hg]
  | some ts => simp [hg]

theorem nonEmptyForward_foldl_unsub {st : ConnectionManager} (h : nonEmptyForward st)
    (ws : Nat) (l : List Int) :
    nonEmptyForward (l.foldl (fun s p => ConnectionManager.unsubscribe ws p s) st) := by
  induction l generalizing st with
  | nil => exact h
  | cons p rest ih =>
      rw [List.foldl_cons]
      exact ih (nonEmptyForward_unsubscribe h ws p)

theorem nonEmptyForward_disconnect {st : ConnectionManager} (h : nonEmptyForward st)
    (ws : Nat) : nonEmptyForward (ConnectionManager.disconnect ws st) := by
  intro t s hg
  rw [active_connections_disconnect] at hg
  exact nonEmptyForward_foldl_unsub h ws (reverseTopics ws st) t s hg

theorem nonEmptyForward_applyRegOp {st : ConnectionManager} (h : nonEmptyForward st)
    (op : RegOp) : nonEmptyForward (applyRegOp st op) := by
  cases op with
  | connect ws => exact h
  | disconnect ws => exact nonEmptyForward_disconnect h ws
  | subscribe ws p =>
      intro t s' hg'
      simp only [applyRegOp, ConnectionManager.subscribe] at hg'
      by_cases ht : t = p
      · subst ht
        rw [dictGet_set_self] at hg'
        obtain rfl := Option.some.injEq .. |>.mp hg'
        exact setAdd_ne_nil ws _
      · rw [dictGet_set_ne ht] at hg'
        exact h t s' hg'
  | unsubscribe ws p => exact nonEmptyForward_unsubscribe h ws p

/-- C8: after any sequence of registry operations from the fresh manager,
every topic present in the forward index has a non-empty subscriber set
(emptied entries are dropped, so none accumulate). -/
theorem forward_entries_nonempty (ops : List RegOp) (t : Int) (s : List Nat)
    (hg : dictGet t (runRegOps ops).active_connections = some s) : s ≠ [] := by
  have hrun : ∀ (l : List RegOp) (st : ConnectionManager),
      nonEmptyForward st → nonEmptyForward (l.foldl applyRegOp st) := by
    intro l
    induction l with
    | nil => exact fun st h => h
    | cons op rest ih =>
        intro st h
        rw [List.foldl_cons]
        exact ih _ (nonEmptyForward_applyRegOp h op)
  have hempty : nonEmptyForward emptyCM := by
    intro t0 s0 hg0
    exact absurd hg0 (by simp [emptyCM, dictGet])
  exact hrun ops emptyCM hempty t s hg

theorem forward_entries_nonempty_witness :
    dictGet 5 (runRegOps [RegOp.connect 1, RegOp.subscribe 1 5]).active_connections
        = some [1]
      ∧ ([1] : List Nat) ≠ [] :=
  ⟨by decide, forward_entries_nonempty [RegOp.connect 1, RegOp.subscribe 1 5] 5 [1] (by decide)⟩

theorem reverseTopics_mem_some {c : Nat} {t : Int} {st : ConnectionManager}
    (h : t ∈ reverseTopics c st) :
    ∃ ts, dictGet c st.subscriptions = some ts ∧ t ∈ ts := by
  unfold reverseTopics at h
  cases hg : dictGet c st.subscriptions with
  | none =>
      rw [hg] at h
      exact absurd h (List.not_mem_nil t)
  | some ts =>
      rw [hg] at h
      exact ⟨ts, rfl, h⟩

theorem foldl_disconnect_absent {c : Nat} {t : Int} (l : List Nat) (st : ConnectionManager)
    (h : c ∉ subscribersOf t st ∨ (c ∈ l ∧ t ∈ reverseTopics c st)) :
    c ∉ subscribersOf t (l.foldl (fun s d => ConnectionManager.disconnect d s) st) := by
  induction l generalizing st with
  | nil =>
      cases h with
      | inl h0 => exact h0
      | inr h0 => exact absurd h0.1 (List.not_mem_nil c)
  | cons d rest ih =>
      rw [List.foldl_cons]
      cases h with
      | inl h0 => exact ih _ (Or.inl (subscribersOf_disconnect_absent st h0))
      | inr h0 =>
          obtain ⟨hcl, hts⟩ := h0
          by_cases hdc : d = c
          · subst hdc
            obtain ⟨ts, hg, htts⟩ := reverseTopics_mem_some hts
            exact ih _ (Or.inl (disconnect_clears st hg htts))
          · cases List.mem_cons.mp hcl with
            | inl h1 => exact absurd h1.symm hdc
            | inr h1 =>
                refine ih _ (Or.inr ⟨h1, ?_⟩)
                unfold reverseTopics
                rw [subscriptions_disconnect_ne (fun hc => hdc hc.symm)]
                exact hts

/-- C2 (amended): during `broadcast_to_poll(t, e)`, every subscriber whose send
succeeds receives `e` even when other subscribers' sends fail, and — provided
each failing subscriber's reverse-index entry contains `t` (the bidirectional
consistency that holds for connections managed through the connect/subscribe
lifecycle) — every failing subscriber is absent from `subscribers_of(t)` after
the call returns; the call itself is total, so the failure never propagates to
the domain caller. -/
theorem broadcast_failure_isolated {α : Type} (fails : Nat → Bool) (poll_id : Int)
    (message : α) (st : ConnectionManager)
    (hcons : ∀ c ∈ subscribersOf poll_id st, fails c = true → poll_id ∈ reverseTopics c st) :
    (∀ c ∈ subscribersOf poll_id st, fails c = false →
        (c, message) ∈ (broadcast_to_poll fails poll_id message st).1)
      ∧ ∀ c ∈ subscribersOf poll_id st, fails c = true →
          c ∉ subscribersOf poll_id (broadcast_to_poll fails poll_id message st).2 := by
  constructor
  · intro c hc hok
    unfold broadcast_to_poll
    cases hg : dictGet poll_id st.active_connections with
    | none =>
        exfalso
        unfold subscribersOf at hc
        rw [hg] at hc
        exact absurd hc (List.not_mem_nil c)
    | some subs =>
        have hcs : c ∈ subs := by
          unfold subscribersOf at hc
          rw [hg] at hc
          exact hc
        simp only [List.mem_map, List.mem_filter]
        exact ⟨c, ⟨hcs, by simp [hok]⟩, rfl⟩
  · intro c hc hf
    unfold broadcast_to_poll
    cases hg : dictGet poll_id st.active_connections with
    | none =>
        exfalso
        unfold subscribersOf at hc
        rw [hg] at hc
        exact absurd hc (List.not_mem_nil c)
    | some subs =>
        have hcs : c ∈ subs := by
          unfold subscribersOf at hc
          rw [hg] at hc
          exact hc
        simp only
        refine foldl_disconnect_absent _ st (Or.inr ⟨?_, hcons c hc hf⟩)
        exact List.mem_filter.mpr ⟨hcs, hf⟩

theorem broadcast_failure_isolated_witness :
    ((2, 0) ∈ (broadcast_to_poll (fun c => decide (c = 1)) 5 (0 : Nat)
        (subscribe 2 5 (subscribe 1 5 (connect 2 (connect 1 emptyCM))))).1)
      ∧ 1 ∉ subscribersOf 5 (broadcast_to_poll (fun c => decide (c = 1)) 5 (0 : Nat)
          (subscribe 2 5 (subscribe 1 5 (connect 2 (connect 1 emptyCM))))).2 := by
  have h := broadcast_failure_isolated (fun c => decide (c = 1)) 5 (0 : Nat)
      (subscribe 2 5 (subscribe 1 5 (connect 2 (connect 1 emptyCM))))
      (by decide)
  exact ⟨h.1 2 (by decide) (by decide), h.2 1 (by decide) (by decide)⟩

/-- C2 as stated is false on the code: a connection that re-subscribes after
having been evicted sits in the forward index with no reverse entry; when its
send fails during a broadcast, the eviction (`disconnect`) finds no
`subscriptions` entry and leaves the forward index untouched, so the failing
connection is still in `subscribers_of(t)` after the call returns. -/
theorem broadcast_failure_isolated_cex :
    ((fun c => decide (c = 1)) 1 = true)
      ∧ 1 ∈ subscribersOf 7 (subscribe 1 7 (disconnect 1 (subscribe 1 7 (connect 1 emptyCM))))
      ∧ 1 ∈ subscribersOf 7 (broadcast_to_poll (fun c => decide (c = 1)) 7 (0 : Nat)
          (subscribe 1 7 (disconnect 1 (subscribe 1 7 (connect 1 emptyCM))))).2 := by
  decide

theorem disconnect_no_op {ws : Nat} {st : ConnectionManager}
    (h1 : dictGet ws st.subscriptions = none) (h2 : ws ∉ st.all_connections) :
    ConnectionManager.disconnect ws st = st := by
  unfold ConnectionManager.disconnect
  simp only [h1]
  rw [setDiscard_of_not_mem h2]

/-- C4 (amended): provided every forward entry containing `c` is listed in
`c`'s reverse entry (bidirectional consistency for `c`), after `disconnect(c)`
the connection appears in zero forward-index entries and the reverse index has
no entry for it; the call is total for a connection with zero subscriptions,
and calling it again on the already-removed connection leaves the state
unchanged. -/
theorem disconnect_removes_connection (c : Nat) (st : ConnectionManager)
    (hcons : ∀ t : Int, c ∈ subscribersOf t st → t ∈ reverseTopics c st) :
    (∀ t : Int, c ∉ subscribersOf t (ConnectionManager.disconnect c st))
      ∧ dictGet c (ConnectionManager.disconnect c st).subscriptions = none
      ∧ ConnectionManager.disconnect c (ConnectionManager.disconnect c st)
          = ConnectionManager.disconnect c st := by
  refine ⟨?_, subscriptions_disconnect_self c st, ?_⟩
  · intro t
    by_cases hc : c ∈ subscribersOf t st
    · obtain ⟨ts, hg, htts⟩ := reverseTopics_mem_some (hcons t hc)
      exact disconnect_clears st hg htts
    · exact subscribersOf_disconnect_absent st hc
  · refine disconnect_no_op (subscriptions_disconnect_self c st) ?_
    rw [all_connections_disconnect, mem_setDiscard]
    intro hm
    exact absurd rfl hm.2

theorem disconnect_removes_connection_witness :
    1 ∉ subscribersOf 5 (disconnect 1 (subscribe 1 5 (connect 1 emptyCM)))
      ∧ dictGet 1 (disconnect 1 (subscribe 1 5 (connect 1 emptyCM))).subscriptions = none
      ∧ disconnect 1 (disconnect 1 (subscribe 1 5 (connect 1 emptyCM)))
          = disconnect 1 (subscribe 1 5 (connect 1 emptyCM)) := by
  have hcons : ∀ t : Int,
      1 ∈ subscribersOf t (subscribe 1 5 (connect 1 emptyCM))
        → t ∈ reverseTopics 1 (subscribe 1 5 (connect 1 emptyCM)) := by
    intro t ht
    by_cases h5 : t = 5
    · subst h5
      decide
    · exfalso
      rw [subscribersOf_subscribe, if_neg h5, subscribersOf_connect] at ht
      revert ht
      show 1 ∈ (dictGet t ([] : List (Int × List Nat))).getD [] → False
      simp [dictGet]
  have h := disconnect_removes_connection 1 (subscribe 1 5 (connect 1 emptyCM)) hcons
  exact ⟨h.1 5, h.2.1, h.2.2⟩

/-- C4 as stated is false on the code: for a connection that re-subscribed
after eviction (forward entry without reverse entry), `disconnect` removes
nothing from the forward index, so the connection still appears there
afterward; moreover for a connected websocket with zero subscriptions the
call does change the registry state (its reverse entry and `all_connections`
membership are removed). -/
theorem disconnect_removes_connection_cex :
    1 ∈ subscribersOf 7 (disconnect 1
        (subscribe 1 7 (disconnect 1 (subscribe 1 7 (connect 1 emptyCM)))))
      ∧ disconnect 2 (connect 2 emptyCM) ≠ connect 2 emptyCM := by
  decide

theorem handle_unknown_eq {α : Type} (fails : Nat → Bool) (ws : Nat) (d : InMsg)
    (st : ConnectionManager)
    (h : (d.type ≠ some "subscribe" ∧ d.type ≠ some "unsubscribe" ∧ d.type ≠ some "ping")
        ∨ ((d.type = some "subscribe" ∨ d.type = some "unsubscribe")
            ∧ truthyPollId d.poll_id = false)) :
    handle_websocket_message (α := α) fails ws d st = ([], st) := by
  cases h with
  | inl h0 =>
      obtain ⟨h1, h2, h3⟩ := h0
      unfold handle_websocket_message
      rw [if_neg h1, if_neg h2, if_neg h3]
  | inr h0 =>
      obtain ⟨h1, h2⟩ := h0
      cases hp : d.poll_id with
      | none =>
          cases h1 with
          | inl hs =>
              unfold handle_websocket_message
              rw [if_pos hs]
              simp only [hp]
          | inr hs =>
              unfold handle_websocket_message
              by_cases hsub : d.type = some "subscribe"
              · exact absurd (Option.some.injEq .. |>.mp (hsub.symm.trans hs)) (by decide)
              · rw [if_neg hsub, if_pos hs]
                simp only [hp]
      | some n =>
          have hn : n = 0 := by
            unfold truthyPollId at h2
            rw [hp] at h2
            simpa using h2
          subst hn
          cases h1 with
          | inl hs =>
              unfold handle_websocket_message
              rw [if_pos hs]
              simp only [hp]
              rw [if_neg (by simp)]
          | inr hs =>
              unfold handle_websocket_message
              by_cases hsub : d.type = some "subscribe"
              · exact absurd (Option.some.injEq .. |>.mp (hsub.symm.trans hs)) (by decide)
              · rw [if_neg hsub, if_pos hs]
                simp only [hp]
                rw [if_neg (by simp)]

/-- C6 (amended): a parsed inbound message whose type is none of `subscribe`,
`unsubscribe`, `ping` — or a `subscribe`/`unsubscribe` whose `poll_id` is
missing or falsy — is ignored: the registry state is unchanged, nothing is
sent to the client, and the endpoint loop continues (the connection stays
open); a frame on which JSON parsing fails, however, is handled by the
endpoint's `except Exception` branch, which disconnects the websocket and
ends the loop. -/
theorem unknown_message_ignored {α : Type} (fails : Nat → Bool) (ws : Nat) (d : InMsg)
    (st : ConnectionManager)
    (h : (d.type ≠ some "subscribe" ∧ d.type ≠ some "unsubscribe" ∧ d.type ≠ some "ping")
        ∨ ((d.type = some "subscribe" ∨ d.type = some "unsubscribe")
            ∧ truthyPollId d.poll_id = false)) :
    handle_websocket_message (α := α) fails ws d st = ([], st)
      ∧ wsLoop fails ws [Frame.json d] st = (st, false) := by
  refine ⟨handle_unknown_eq fails ws d st h, ?_⟩
  show wsLoop fails ws [] (handle_websocket_message (α := Unit) fails ws d st).2 = (st, false)
  rw [handle_unknown_eq fails ws d st h]
  rfl

theorem unknown_message_ignored_witness :
    handle_websocket_message (α := Unit) (fun _ => false) 1 ⟨some "bogus", some 5⟩
        (connect 1 emptyCM)
      = ([], connect 1 emptyCM)
      ∧ wsLoop (fun _ => false) 1 [Frame.json ⟨some "bogus", some 5⟩] (connect 1 emptyCM)
      = (connect 1 emptyCM, false) :=
  unknown_message_ignored (fun _ => false) 1 ⟨some "bogus", some 5⟩ (connect 1 emptyCM)
    (Or.inl (by decide))

/-- C6 as stated is false on the code: a frame that fails JSON parsing makes
`websocket.receive_json()` raise; `websocket_endpoint`'s `except Exception`
branch then disconnects the websocket and the loop ends, so malformed traffic
does terminate the connection and does change the registry state. -/
theorem unknown_message_ignored_cex :
    (websocket_endpoint (fun _ => false) 1
        [Frame.json ⟨some "subscribe", some 5⟩, Frame.garbage] emptyCM).2 = true
      ∧ dictGet 1 (websocket_endpoint (fun _ => false) 1
          [Frame.json ⟨some "subscribe", some 5⟩, Frame.garbage] emptyCM).1.subscriptions
        = none
      ∧ 1 ∉ (websocket_endpoint (fun _ => false) 1
          [Frame.json ⟨some "subscribe", some 5⟩, Frame.garbage] emptyCM).1.all_connections := by
  decide

/-- C7 (amended): for every nonzero integer `n`, an inbound
`{"type": "subscribe", "poll_id": n}` from connection `c` calls
`Registry.subscribe(c, n)` and, when the direct send succeeds, replies to `c`
with `{"type": "subscribed", "poll_id": n}`; for `n = 0` the message is
ignored because the handler tests the Python truthiness of `poll_id`. -/
theorem handle_subscribe_acks {α : Type} (fails : Nat → Bool) (c : Nat) (n : Int)
    (st : ConnectionManager) (hn : n ≠ 0) (hok : fails c = false) :
    handle_websocket_message (α := α) fails c ⟨some "subscribe", some n⟩ st
        = ([(c, Msg.subscribed n)], ConnectionManager.subscribe c n st)
      ∧ c ∈ subscribersOf n (ConnectionManager.subscribe c n st) := by
  constructor
  · unfold handle_websocket_message
    rw [if_pos rfl]
    simp only
    rw [if_pos hn]
    unfold ConnectionManager.send_personal_message
    rw [hok]
    rfl
  · rw [subscribersOf_subscribe, if_pos rfl]
    exact mem_setAdd.mpr (Or.inl rfl)

theorem handle_subscribe_acks_witness :
    handle_websocket_message (α := Unit) (fun _ => false) 1 ⟨some "subscribe", some 5⟩
        (connect 1 emptyCM)
      = ([(1, Msg.subscribed 5)], subscribe 1 5 (connect 1 emptyCM))
      ∧ 1 ∈ subscribersOf 5 (subscribe 1 5 (connect 1 emptyCM)) :=
  handle_subscribe_acks (fun _ => false) 1 5 (connect 1 emptyCM) (by decide) rfl

/-- C7 as stated is false on the code for `n = 0`: the handler guards with the
Python truthiness of `poll_id`, so `{"type": "subscribe", "poll_id": 0}` is
dropped — `Registry.subscribe` is not called and no acknowledgment is sent. -/
theorem handle_subscribe_acks_cex :
    handle_websocket_message (α := Unit) (fun _ => false) 1 ⟨some "subscribe", some 0⟩
        (connect 1 emptyCM)
      = ([], connect 1 emptyCM)
      ∧ 1 ∉ subscribersOf 0 (connect 1 emptyCM) := by
  decide
